import Mathlib

/-!
Shallow embedding of `src/speeches/acoustic.py` (class `AcousticDataset`).

Modelling conventions:
  - a 1-D `np.long` array is a `List Int`; a 2-D mel array is a
    `List (List Int)` whose elements are the time frames.  The adapter never
    performs arithmetic on mel entries (it only copies them around and pads
    with the constant 0), so integer entries stand in for float entries
    without loss of behaviour.
  - numpy operations that can raise (`np.pad` with a negative pad width,
    `np.stack` on mismatched shapes, tuple-unpacking an empty array) are
    embedded as `Except String` values; the message strings are abbreviated
    forms of the numpy messages.
  - the external collaborators (`TextNormalizer.labeling`, `MelSTFT.__call__`)
    are fields of the `AcousticDataset` structure, as in the constructor.
-/

set_option autoImplicit false

namespace Speeches

universe u v

/-- numpy `arr.max()` over a 1-D array of nonnegative integers.  On the
nonempty arrays `collate` applies it to, it is the greatest element. -/
def npMax (l : List Nat) : Nat := l.foldl Nat.max 0

/-- numpy `np.pad(x, [before, after])` on a 1-D array, constant mode with
value 0: a negative pad width raises `ValueError`, otherwise `before` zeros
are prepended and `after` zeros appended. -/
def npPad1 (x : List Int) (before after : Int) : Except String (List Int) :=
  if before < 0 ∨ after < 0 then .error "negative pad width"
  else .ok (List.replicate before.toNat 0 ++ x ++ List.replicate after.toNat 0)

/-- Column count (`shape[1]`) of a 2-D array modelled as a list of rows. -/
def melWidth (x : List (List Int)) : Nat := (x.headD []).length

/-- numpy `np.pad(x, [[tb, ta], [fb, fa]])` on a 2-D array, constant mode
with value 0: any negative width raises `ValueError`; otherwise each row is
padded by `fb`/`fa` zeros and `tb`/`ta` all-zero rows are added. -/
def npPad2 (x : List (List Int)) (tb ta fb fa : Int) :
    Except String (List (List Int)) :=
  if tb < 0 ∨ ta < 0 ∨ fb < 0 ∨ fa < 0 then .error "negative pad width"
  else
    let rows := x.map fun r =>
      List.replicate fb.toNat 0 ++ r ++ List.replicate fa.toNat 0
    let padRow := List.replicate (fb.toNat + melWidth x + fa.toNat) (0 : Int)
    .ok (List.replicate tb.toNat padRow ++ rows ++ List.replicate ta.toNat padRow)

/-- numpy `np.stack` (axis 0) on a list of 1-D arrays: all inputs must have
the same shape, and the stacked result holds exactly the input rows. -/
def npStack1 (xs : List (List Int)) : Except String (List (List Int)) :=
  match xs with
  | [] => .error "need at least one array to stack"
  | x :: rest =>
    if ∀ y ∈ rest, y.length = x.length then .ok (x :: rest)
    else .error "all input arrays must have the same shape"

/-- Shape `(rows, cols)` of a 2-D array modelled as a list of rows. -/
def shape2 (x : List (List Int)) : Nat × Nat := (x.length, melWidth x)

/-- numpy `np.stack` (axis 0) on a list of 2-D arrays: all inputs must have
the same shape, and the stacked result holds exactly the input slices. -/
def npStack2 (xs : List (List (List Int))) :
    Except String (List (List (List Int))) :=
  match xs with
  | [] => .error "need at least one array to stack"
  | x :: rest =>
    if ∀ y ∈ rest, shape2 y = shape2 x then .ok (x :: rest)
    else .error "all input arrays must have the same shape"

/-- Fail-fast list comprehension over a fallible element operation, as a
Python list comprehension propagates the first exception raised. -/
def mapE {α : Type u} {β : Type v} (f : α → Except String β) :
    List α → Except String (List β)
  | [] => .ok []
  | x :: xs =>
    match f x with
    | .error e => .error e
    | .ok y =>
      match mapE f xs with
      | .error e => .error e
      | .ok ys => .ok (y :: ys)

/-- `AcousticDataset.collate(self, bunch)`.

Source (`src/speeches/acoustic.py`):
```
textlen, mellen = np.array(
    [[len(labels), len(spec)] for labels, spec in bunch], dtype=np.long).T
text = np.stack(
    [np.pad(labels, [0, len(labels) - textlen.max()]) for labels, _ in bunch])
mel = np.stack(
    [np.pad(spec, [[0, len(spec) - mellen.max()], [0, 0]]) for _, spec in bunch])
return mel, text, textlen, mellen
```
Unpacking the transposed length array fails on an empty bunch; the pad
widths are computed as `len(x) - max`, which is negative (and raises) for
any example shorter than the longest one. -/
def collate (bunch : List (List Int × List (List Int))) :
    Except String (List (List (List Int)) × List (List Int) × List Nat × List Nat) :=
  if bunch.isEmpty then
    .error "not enough values to unpack"
  else
    match mapE (fun p => npPad1 p.1 0
        ((p.1.length : Int) - (npMax (bunch.map fun q => q.1.length) : Int))) bunch with
    | .error e => .error e
    | .ok padded =>
      match npStack1 padded with
      | .error e => .error e
      | .ok text =>
        match mapE (fun p => npPad2 p.2 0
            ((p.2.length : Int) - (npMax (bunch.map fun q => q.2.length) : Int)) 0 0) bunch with
        | .error e => .error e
        | .ok padded2 =>
          match npStack2 padded2 with
          | .error e => .error e
          | .ok mel =>
            .ok (mel, text, bunch.map fun q => q.1.length,
                 bunch.map fun q => q.2.length)

/-- State of an `AcousticDataset` instance as far as `normalize` reads it:
the two collaborator callables cached by the constructor
(`self.textnorm.labeling` and `self.melstft.__call__`), each of which may
raise (embedded as `Except`).  The waveform element type is `Rat`, standing
for float samples in `(-1, 1)`; `normalize` never inspects sample values. -/
structure AcousticDataset where
  textnorm : String → Except String (List Int)
  melstft : List Rat → Except String (List (List Int))

/-- `AcousticDataset.normalize(self, text, speech)`:
`labels = np.array(self.textnorm.labeling(text), dtype=np.long)` (the array
conversion of an integer list is the identity on contents), then
`mel = self.melstft(speech)`, then `return labels, mel`.  The method contains
no attribute assignment, so the post-state is the input state, returned
explicitly to make state threading visible. -/
def normalize (self : AcousticDataset) (text : String) (speech : List Rat) :
    Except String ((List Int × List (List Int)) × AcousticDataset) :=
  match self.textnorm text with
  | .error e => .error e
  | .ok labels =>
    match self.melstft speech with
    | .error e => .error e
    | .ok mel => .ok ((labels, mel), self)

/-- Modelled from the spec: the external Text Normalizer class (not part of
this excerpt) exposes a fixed grapheme vocabulary `GRAPHEMES`; only its
size is relevant here. -/
structure TextNormalizerClass where
  GRAPHEMES : List Char

/-- `AcousticDataset.VOCABS = len(TextNormalizer.GRAPHEMES) + 1`, evaluated
once in the class body. -/
def VOCABS (tn : TextNormalizerClass) : Nat := tn.GRAPHEMES.length + 1

/-- Example bunch with a label sequence strictly shorter than the longest. -/
def bunchShort : List (List Int × List (List Int)) := [([1], [[0]]), ([1, 2], [[0]])]

/-- Example bunch whose examples have equal lengths but different mel
feature dimensions (1x2 versus 1x3). -/
def bunchDims : List (List Int × List (List Int)) :=
  [([1], [[0, 0]]), ([2], [[0, 0, 0]])]

/-- Example bunch used for the C7 counterexample: two examples whose label
sequences both have the maximal length. -/
def bunchTwoMax : List (List Int × List (List Int)) := [([4], [[2]]), ([5], [[3]])]

/-- Example bunch used for the C7 witness. -/
def bunchOne : List (List Int × List (List Int)) := [([6], [[9]])]

/-- The batch `collate` produces for `bunchOne`. -/
def outOne : List (List (List Int)) × List (List Int) × List Nat × List Nat :=
  ([[[9]]], [[6]], [1], [1])

/-- A concrete dataset instance with constant collaborators, for witnesses. -/
def dsDemo : AcousticDataset :=
  ⟨fun _ => .ok [3], fun _ => .ok [[5]]⟩

/-- A concrete dataset instance whose text normalizer raises. -/
def dsErr : AcousticDataset :=
  ⟨fun _ => .error "unsupported character", fun _ => .ok []⟩

/-- A concrete two-character grapheme vocabulary. -/
def tnDemo : TextNormalizerClass := ⟨['a', 'b']⟩

lemma foldl_max_init_le (l : List Nat) : ∀ a : Nat, a ≤ l.foldl Nat.max a := by
  induction l with
  | nil => intro a; exact le_refl a
  | cons y ys ih =>
    intro a
    rw [List.foldl_cons]
    exact le_trans (Nat.le_max_left a y) (ih (Nat.max a y))

lemma le_foldl_max (x : Nat) :
    ∀ l : List Nat, x ∈ l → ∀ a : Nat, x ≤ l.foldl Nat.max a := by
  intro l
  induction l with
  | nil => intro h; exact absurd h (List.not_mem_nil x)
  | cons y ys ih =>
    intro h a
    rw [List.foldl_cons]
    rcases List.mem_cons.mp h with hx | hx
    · subst hx
      exact le_trans (Nat.le_max_right a x) (foldl_max_init_le ys (Nat.max a x))
    · exact ih hx (Nat.max a y)

lemma le_npMax_of_mem {l : List Nat} {x : Nat} (h : x ∈ l) : x ≤ npMax l :=
  le_foldl_max x l h 0

lemma mapE_ok_forall {α : Type u} {β : Type v} {f : α → Except String β} :
    ∀ {l : List α} {ys : List β}, mapE f l = .ok ys →
      ∀ x ∈ l, ∃ y, f x = .ok y := by
  intro l
  induction l with
  | nil =>
    intro ys _ x hx
    exact absurd hx (List.not_mem_nil x)
  | cons z zs ih =>
    intro ys h x hx
    rw [mapE] at h
    cases hz : f z with
    | error e => rw [hz] at h; exact absurd h (by simp)
    | ok y =>
      rw [hz] at h
      cases hzs : mapE f zs with
      | error e => rw [hzs] at h; exact absurd h (by simp)
      | ok ys2 =>
        rw [hzs] at h
        rcases List.mem_cons.mp hx with hx | hx
        · subst hx; exact ⟨y, hz⟩
        · exact ih hzs x hx

lemma mapE_congr_ok {α : Type u} {β : Type v} {f : α → Except String β} {g : α → β} :
    ∀ {l : List α}, (∀ x ∈ l, f x = .ok (g x)) → mapE f l = .ok (l.map g) := by
  intro l
  induction l with
  | nil => intro _; rfl
  | cons z zs ih =>
    intro h
    have hz := h z (List.mem_cons_self z zs)
    have hzs := ih fun x hx => h x (List.mem_cons_of_mem z hx)
    rw [mapE, hz, hzs, List.map_cons]

lemma npPad1_ok_nonneg {x : List Int} {b a : Int} {y : List Int}
    (h : npPad1 x b a = .ok y) : 0 ≤ b ∧ 0 ≤ a := by
  rw [npPad1] at h
  split at h
  · exact absurd h (by simp)
  · next hc =>
    push_neg at hc
    omega

lemma npPad2_ok_nonneg {x : List (List Int)} {tb ta fb fa : Int}
    {y : List (List Int)} (h : npPad2 x tb ta fb fa = .ok y) :
    0 ≤ tb ∧ 0 ≤ ta ∧ 0 ≤ fb ∧ 0 ≤ fa := by
  rw [npPad2] at h
  split at h
  · exact absurd h (by simp)
  · next hc =>
    push_neg at hc
    omega

lemma npPad1_zero (x : List Int) : npPad1 x 0 0 = .ok x := by
  simp [npPad1]

lemma npPad2_zero (x : List (List Int)) : npPad2 x 0 0 0 0 = .ok x := by
  simp [npPad2]

lemma npStack1_ok_of_eq {xs : List (List Int)} (hne : xs ≠ [])
    (h : ∀ y ∈ xs, ∀ z ∈ xs, y.length = z.length) : npStack1 xs = .ok xs := by
  cases xs with
  | nil => exact absurd rfl hne
  | cons x rest =>
    rw [npStack1, if_pos]
    intro y hy
    exact h y (List.mem_cons_of_mem x hy) x (List.mem_cons_self x rest)

lemma npStack2_ok_of_eq {xs : List (List (List Int))} (hne : xs ≠ [])
    (h : ∀ y ∈ xs, ∀ z ∈ xs, shape2 y = shape2 z) : npStack2 xs = .ok xs := by
  cases xs with
  | nil => exact absurd rfl hne
  | cons x rest =>
    rw [npStack2, if_pos]
    intro y hy
    exact h y (List.mem_cons_of_mem x hy) x (List.mem_cons_self x rest)

lemma npStack2_ok_inv {xs m : List (List (List Int))}
    (h : npStack2 xs = .ok m) :
    m = xs ∧ ∀ y ∈ xs, ∀ z ∈ xs, shape2 y = shape2 z := by
  cases xs with
  | nil => exact absurd h (by simp [npStack2])
  | cons x rest =>
    rw [npStack2] at h
    split at h
    · next hc =>
      refine ⟨?_, ?_⟩
      · cases h; rfl
      · intro y hy z hz
        have hyx : shape2 y = shape2 x := by
          rcases List.mem_cons.mp hy with hy1 | hy2
          · rw [hy1]
          · exact hc y hy2
        have hzx : shape2 z = shape2 x := by
          rcases List.mem_cons.mp hz with hz1 | hz2
          · rw [hz1]
          · exact hc z hz2
        rw [hyx, hzx]
    · exact absurd h (by simp)

lemma isEmpty_false_of_ne_nil {bunch : List (List Int × List (List Int))}
    (hne : bunch ≠ []) : bunch.isEmpty = false := by
  cases bunch with
  | nil => exact absurd rfl hne
  | cons b bs => rfl

lemma collate_ok_of {bunch : List (List Int × List (List Int))}
    (hne : bunch ≠ [])
    (ht : ∀ p ∈ bunch, p.1.length = npMax (bunch.map fun q => q.1.length))
    (hm : ∀ p ∈ bunch, p.2.length = npMax (bunch.map fun q => q.2.length))
    (hw : ∀ p ∈ bunch, ∀ q ∈ bunch, melWidth p.2 = melWidth q.2) :
    collate bunch = .ok (bunch.map fun p => p.2, bunch.map fun p => p.1,
      bunch.map fun p => p.1.length, bunch.map fun p => p.2.length) := by
  have h0 : bunch.isEmpty = false := isEmpty_false_of_ne_nil hne
  have hpad1 : mapE (fun p => npPad1 p.1 0
      ((p.1.length : Int) - (npMax (bunch.map fun q => q.1.length) : Int))) bunch =
      .ok (bunch.map fun p => p.1) := by
    apply mapE_congr_ok
    intro p hp
    have hz : (p.1.length : Int) - (npMax (bunch.map fun q => q.1.length) : Int) = 0 := by
      have := ht p hp
      omega
    rw [hz]
    exact npPad1_zero p.1
  have hpad2 : mapE (fun p => npPad2 p.2 0
      ((p.2.length : Int) - (npMax (bunch.map fun q => q.2.length) : Int)) 0 0) bunch =
      .ok (bunch.map fun p => p.2) := by
    apply mapE_congr_ok
    intro p hp
    have hz : (p.2.length : Int) - (npMax (bunch.map fun q => q.2.length) : Int) = 0 := by
      have := hm p hp
      omega
    rw [hz]
    exact npPad2_zero p.2
  have hmapne1 : (bunch.map fun p => p.1) ≠ [] := by
    intro hx
    exact hne (List.map_eq_nil_iff.mp hx)
  have hmapne2 : (bunch.map fun p => p.2) ≠ [] := by
    intro hx
    exact hne (List.map_eq_nil_iff.mp hx)
  have hst1 : npStack1 (bunch.map fun p => p.1) = .ok (bunch.map fun p => p.1) := by
    apply npStack1_ok_of_eq hmapne1
    intro y hy z hz
    obtain ⟨p, hp, hpe⟩ := List.mem_map.mp hy
    obtain ⟨q, hq, hqe⟩ := List.mem_map.mp hz
    rw [← hpe, ← hqe, ht p hp, ht q hq]
  have hst2 : npStack2 (bunch.map fun p => p.2) = .ok (bunch.map fun p => p.2) := by
    apply npStack2_ok_of_eq hmapne2
    intro y hy z hz
    obtain ⟨p, hp, hpe⟩ := List.mem_map.mp hy
    obtain ⟨q, hq, hqe⟩ := List.mem_map.mp hz
    have h1 : p.2.length = q.2.length := by rw [hm p hp, hm q hq]
    have h2 : melWidth p.2 = melWidth q.2 := hw p hp q hq
    rw [← hpe, ← hqe]
    simp [shape2, h1, h2]
  rw [collate, h0]
  simp only [Bool.false_eq_true, if_false, hpad1, hst1, hpad2, hst2]

lemma collate_ok_inv {bunch : List (List Int × List (List Int))}
    {out : List (List (List Int)) × List (List Int) × List Nat × List Nat}
    (h : collate bunch = .ok out) :
    bunch ≠ [] ∧
    (∀ p ∈ bunch, p.1.length = npMax (bunch.map fun q => q.1.length)) ∧
    (∀ p ∈ bunch, p.2.length = npMax (bunch.map fun q => q.2.length)) ∧
    (∀ p ∈ bunch, ∀ q ∈ bunch, melWidth p.2 = melWidth q.2) ∧
    out = (bunch.map fun p => p.2, bunch.map fun p => p.1,
           bunch.map fun p => p.1.length, bunch.map fun p => p.2.length) := by
  have hne : bunch ≠ [] := by
    intro hb
    rw [hb] at h
    exact absurd h (by simp [collate])
  rw [collate, isEmpty_false_of_ne_nil hne] at h
  simp only [Bool.false_eq_true, if_false] at h
  split at h
  · exact absurd h (by simp)
  · next padded heq1 =>
    split at h
    · exact absurd h (by simp)
    · next text heq2 =>
      split at h
      · exact absurd h (by simp)
      · next padded2 heq3 =>
        split at h
        · exact absurd h (by simp)
        · next mel heq4 =>
          have ht : ∀ p ∈ bunch,
              p.1.length = npMax (bunch.map fun q => q.1.length) := by
            intro p hp
            obtain ⟨y, hy⟩ := mapE_ok_forall heq1 p hp
            have hnn := (npPad1_ok_nonneg hy).2
            have hle : p.1.length ≤ npMax (bunch.map fun q => q.1.length) :=
              le_npMax_of_mem (List.mem_map_of_mem (fun q => q.1.length) hp)
            omega
          have hm : ∀ p ∈ bunch,
              p.2.length = npMax (bunch.map fun q => q.2.length) := by
            intro p hp
            obtain ⟨y, hy⟩ := mapE_ok_forall heq3 p hp
            have hnn := (npPad2_ok_nonneg hy).2.1
            have hle : p.2.length ≤ npMax (bunch.map fun q => q.2.length) :=
              le_npMax_of_mem (List.mem_map_of_mem (fun q => q.2.length) hp)
            omega
          have hpad1 : mapE (fun p => npPad1 p.1 0
              ((p.1.length : Int) - (npMax (bunch.map fun q => q.1.length) : Int))) bunch =
              .ok (bunch.map fun p => p.1) := by
            apply mapE_congr_ok
            intro p hp
            have hz : (p.1.length : Int) -
                (npMax (bunch.map fun q => q.1.length) : Int) = 0 := by
              have := ht p hp
              omega
            rw [hz]
            exact npPad1_zero p.1
          have hpad2 : mapE (fun p => npPad2 p.2 0
              ((p.2.length : Int) - (npMax (bunch.map fun q => q.2.length) : Int)) 0 0) bunch =
              .ok (bunch.map fun p => p.2) := by
            apply mapE_congr_ok
            intro p hp
            have hz : (p.2.length : Int) -
                (npMax (bunch.map fun q => q.2.length) : Int) = 0 := by
              have := hm p hp
              omega
            rw [hz]
            exact npPad2_zero p.2
          have hp1 : padded = bunch.map fun p => p.1 := by
            have := heq1.symm.trans hpad1
            cases this
            rfl
          have hp2 : padded2 = bunch.map fun p => p.2 := by
            have := heq3.symm.trans hpad2
            cases this
            rfl
          subst hp1
          subst hp2
          obtain ⟨hmel, hsh⟩ := npStack2_ok_inv heq4
          have hw : ∀ p ∈ bunch, ∀ q ∈ bunch, melWidth p.2 = melWidth q.2 := by
            intro p hp q hq
            have := hsh p.2 (List.mem_map_of_mem (fun r => r.2) hp)
              q.2 (List.mem_map_of_mem (fun r => r.2) hq)
            exact congrArg Prod.snd this
          have htx : text = bunch.map fun p => p.1 := by
            have hmapne1 : (bunch.map fun p => p.1) ≠ [] := by
              intro hx
              exact hne (List.map_eq_nil_iff.mp hx)
            have hst1 : npStack1 (bunch.map fun p => p.1) =
                .ok (bunch.map fun p => p.1) := by
              apply npStack1_ok_of_eq hmapne1
              intro y hy z hz
              obtain ⟨p, hp, hpe⟩ := List.mem_map.mp hy
              obtain ⟨q, hq, hqe⟩ := List.mem_map.mp hz
              rw [← hpe, ← hqe, ht p hp, ht q hq]
            have := heq2.symm.trans hst1
            cases this
            rfl
          subst htx
          subst hmel
          cases h
          exact ⟨hne, ht, hm, hw, rfl⟩

/-- C1: the spec claims that for every non-empty bunch `collate` right-pads
each label sequence to `S_max` and each mel sequence to `T_max` with zeros.
On the code this fails: the pad width is computed as `len(x) - max`, which is
negative for any example shorter than the longest, and `np.pad` raises on a
negative width.  Evaluated here at a two-example bunch with label lengths 1
and 2: `collate` raises instead of returning a padded batch. -/
theorem collate_pad_claim_fails_C1 :
    collate [([2], [[5], [6]]), ([3, 4], [[7]])] = .error "negative pad width" := by
  rfl

/-- C2: for every non-empty bunch containing a label sequence strictly
shorter than the longest label sequence, or a mel sequence strictly shorter
than the longest mel sequence, `collate` raises an error (the computed pad
width `len(x) - max` is negative and the padding operation rejects it). -/
theorem collate_raises_on_shorter_C2 (bunch : List (List Int × List (List Int)))
    (_hne : bunch ≠ [])
    (h : (∃ p ∈ bunch, p.1.length < npMax (bunch.map fun q => q.1.length)) ∨
         (∃ p ∈ bunch, p.2.length < npMax (bunch.map fun q => q.2.length))) :
    ∃ e, collate bunch = .error e := by
  cases hc : collate bunch with
  | error e => exact ⟨e, rfl⟩
  | ok out =>
    exfalso
    obtain ⟨-, ht, hm, -, -⟩ := collate_ok_inv hc
    rcases h with ⟨p, hp, hlt⟩ | ⟨p, hp, hlt⟩
    · exact absurd (ht p hp) (Nat.ne_of_lt hlt)
    · exact absurd (hm p hp) (Nat.ne_of_lt hlt)

/-- Witness for C2 at a concrete bunch whose first label sequence is
strictly shorter than the longest one. -/
theorem collate_raises_on_shorter_C2_witness :
    (bunchShort ≠ [] ∧
      ∃ p ∈ bunchShort, p.1.length < npMax (bunchShort.map fun q => q.1.length)) ∧
    ∃ e, collate bunchShort = .error e :=
  ⟨⟨by decide, by decide⟩,
    collate_raises_on_shorter_C2 bunchShort (by decide) (Or.inl (by decide))⟩

/-- C3: the spec claims the concrete bunch
`[(labels=[3,5], mel=2x4 zeros), (labels=[7], mel=1x4 ones)]` collates to
`textlen=[2,1]`, `mellen=[2,1]`, `text_batch=[[3,5],[7,0]]` and a `(2,2,4)`
mel batch.  On the code, the second example's pad width is `1 - 2 = -1`,
so `np.pad` raises and no batch is returned. -/
theorem collate_scenario_raises_C3 :
    collate [([3, 5], [[0, 0, 0, 0], [0, 0, 0, 0]]), ([7], [[1, 1, 1, 1]])] =
      .error "negative pad width" := by
  rfl

/-- C4: the spec claims every non-empty bunch with uniform mel dimension
collates to shaped batches with true length vectors.  On the code this fails
for any bunch with unequal label lengths: here a uniform-`mel_dim` bunch with
label lengths 1 and 2 raises from the negative pad width instead of
returning the 4-tuple. -/
theorem collate_shape_claim_fails_C4 :
    collate [([1], [[0]]), ([2, 3], [[4]])] = .error "negative pad width" := by
  rfl

/-- C5: `collate` fails on an empty bunch, and also fails when two mel
examples have different feature dimensions. -/
theorem collate_fails_on_empty_or_dim_C5 (bunch : List (List Int × List (List Int)))
    (h : bunch = [] ∨ ∃ p ∈ bunch, ∃ q ∈ bunch, melWidth p.2 ≠ melWidth q.2) :
    ∃ e, collate bunch = .error e := by
  cases hc : collate bunch with
  | error e => exact ⟨e, rfl⟩
  | ok out =>
    exfalso
    obtain ⟨hne, -, -, hw, -⟩ := collate_ok_inv hc
    rcases h with rfl | ⟨p, hp, q, hq, hpq⟩
    · exact hne rfl
    · exact hpq (hw p hp q hq)

/-- Witness for C5 at a concrete bunch whose mel feature dimensions are 2
and 3, and at the empty bunch. -/
theorem collate_fails_on_empty_or_dim_C5_witness :
    (∃ p ∈ bunchDims, ∃ q ∈ bunchDims, melWidth p.2 ≠ melWidth q.2) ∧
    (∃ e, collate bunchDims = .error e) ∧
    ∃ e, collate ([] : List (List Int × List (List Int))) = .error e :=
  ⟨by decide, collate_fails_on_empty_or_dim_C5 bunchDims (Or.inr (by decide)),
    collate_fails_on_empty_or_dim_C5 [] (Or.inl rfl)⟩

/-- C6: a bunch of exactly one example collates successfully with no
padding: the maxima equal that example's own lengths, the text batch holds
exactly its labels and the mel batch exactly its mel array. -/
theorem collate_singleton_C6 (labels : List Int) (mel : List (List Int)) :
    collate [(labels, mel)] = .ok ([mel], [labels], [labels.length], [mel.length]) ∧
    npMax [labels.length] = labels.length ∧ npMax [mel.length] = mel.length := by
  have hmax1 : npMax [labels.length] = labels.length := by
    simp [npMax]
  have hmax2 : npMax [mel.length] = mel.length := by
    simp [npMax]
  refine ⟨?_, hmax1, hmax2⟩
  have h := collate_ok_of
    (show ([(labels, mel)] : List (List Int × List (List Int))) ≠ [] by simp)
    (by
      intro p hp
      rw [List.mem_singleton] at hp
      subst hp
      simp [npMax])
    (by
      intro p hp
      rw [List.mem_singleton] at hp
      subst hp
      simp [npMax])
    (by
      intro p hp q hq
      rw [List.mem_singleton] at hp
      rw [List.mem_singleton] at hq
      subst hp
      subst hq
      rfl)
  exact h

/-- Witness for C6 at a concrete singleton bunch. -/
theorem collate_singleton_C6_witness :
    collate [([7], [[1, 2]])] = .ok ([[[1, 2]]], [[7]], [1], [1]) ∧
    npMax [1] = 1 ∧ npMax [1] = 1 :=
  collate_singleton_C6 [7] [[1, 2]]

/-- C7 counterexample: the spec claims exactly one example in a successful
batch has `textlen == S_max`.  At this concrete bunch `collate` succeeds and
both examples attain the maximal label length, so the count is 2, not 1. -/
theorem collate_exactly_one_max_false_C7 :
    collate bunchTwoMax = .ok ([[[2]], [[3]]], [[4], [5]], [1, 1], [1, 1]) ∧
    ¬ ((bunchTwoMax.map fun p => p.1.length).count
        (npMax (bunchTwoMax.map fun p => p.1.length)) = 1) := by
  exact ⟨rfl, by decide⟩

/-- C7 (amended): for every bunch on which `collate` succeeds, at least one
example has `textlen = S_max` and at least one has `mellen = T_max`, and
padding never truncates real content: the text batch rows are exactly the
input label sequences and the mel batch slices exactly the input mel
arrays. -/
theorem collate_max_realized_C7 (bunch : List (List Int × List (List Int)))
    (out : List (List (List Int)) × List (List Int) × List Nat × List Nat)
    (h : collate bunch = .ok out) :
    (∃ p ∈ bunch, p.1.length = npMax (bunch.map fun q => q.1.length)) ∧
    (∃ p ∈ bunch, p.2.length = npMax (bunch.map fun q => q.2.length)) ∧
    out.2.1 = bunch.map (fun p => p.1) ∧ out.1 = bunch.map (fun p => p.2) := by
  obtain ⟨hne, ht, hm, -, hout⟩ := collate_ok_inv h
  obtain ⟨p, hp⟩ : ∃ p, p ∈ bunch := by
    cases bunch with
    | nil => exact absurd rfl hne
    | cons b bs => exact ⟨b, List.mem_cons_self b bs⟩
  subst hout
  exact ⟨⟨p, hp, ht p hp⟩, ⟨p, hp, hm p hp⟩, rfl, rfl⟩

/-- Witness for the amended C7 at a concrete successful singleton bunch. -/
theorem collate_max_realized_C7_witness :
    collate bunchOne = .ok outOne ∧
    ((∃ p ∈ bunchOne, p.1.length = npMax (bunchOne.map fun q => q.1.length)) ∧
     (∃ p ∈ bunchOne, p.2.length = npMax (bunchOne.map fun q => q.2.length)) ∧
     outOne.2.1 = bunchOne.map (fun p => p.1) ∧
     outOne.1 = bunchOne.map (fun p => p.2)) :=
  ⟨rfl, collate_max_realized_C7 bunchOne outOne rfl⟩

/-- C8: `normalize` is deterministic and has no side effects on the
adapter's state: a successful call returns the state unchanged, and calling
again from the returned state with the same inputs yields the identical
output. -/
theorem normalize_deterministic_C8 (ds : AcousticDataset) (text : String)
    (speech : List Rat) (out : (List Int × List (List Int)) × AcousticDataset)
    (h : normalize ds text speech = .ok out) :
    out.2 = ds ∧ normalize out.2 text speech = .ok out := by
  cases h1 : ds.textnorm text with
  | error e =>
    simp only [normalize, h1] at h
    exact Except.noConfusion h
  | ok labels =>
    cases h2 : ds.melstft speech with
    | error e =>
      simp only [normalize, h1, h2] at h
      exact Except.noConfusion h
    | ok mel =>
      simp only [normalize, h1, h2] at h
      cases h
      exact ⟨rfl, by simp [normalize, h1, h2]⟩

/-- Witness for C8 at a concrete dataset instance with constant
collaborators. -/
theorem normalize_deterministic_C8_witness :
    normalize dsDemo "hello" [] =
      .ok ((([3], [[5]]), dsDemo) :
        (List Int × List (List Int)) × AcousticDataset) ∧
    (((([3], [[5]]), dsDemo) :
        (List Int × List (List Int)) × AcousticDataset).2 = dsDemo ∧
      normalize ((([3], [[5]]), dsDemo) :
        (List Int × List (List Int)) × AcousticDataset).2 "hello" [] =
        .ok (([3], [[5]]), dsDemo)) :=
  ⟨rfl, normalize_deterministic_C8 dsDemo "hello" [] (([3], [[5]]), dsDemo) rfl⟩

/-- C9: `normalize` fails exactly when a collaborator fails, and propagates
that collaborator's error unmodified; it introduces no error of its own. -/
theorem normalize_error_iff_C9 (ds : AcousticDataset) (text : String)
    (speech : List Rat) (e : String) :
    normalize ds text speech = .error e ↔
      ds.textnorm text = .error e ∨
      ∃ labels, ds.textnorm text = .ok labels ∧ ds.melstft speech = .error e := by
  cases h1 : ds.textnorm text with
  | error e1 =>
    simp [normalize, h1]
  | ok labels =>
    cases h2 : ds.melstft speech with
    | error e2 =>
      simp [normalize, h1, h2]
    | ok mel =>
      simp [normalize, h1, h2]

/-- Witness for C9 at a concrete dataset whose text normalizer raises. -/
theorem normalize_error_iff_C9_witness :
    normalize dsErr "a" [] = .error "unsupported character" ↔
      dsErr.textnorm "a" = .error "unsupported character" ∨
      ∃ labels, dsErr.textnorm "a" = .ok labels ∧
        dsErr.melstft [] = .error "unsupported character" :=
  normalize_error_iff_C9 dsErr "a" [] "unsupported character"

/-- C10: the adapter's vocabulary-size constant `VOCABS` equals the Text
Normalizer's grapheme-vocabulary size plus one reserved slot, fixed once at
class-definition time. -/
theorem vocabs_eq_C10 (tn : TextNormalizerClass) :
    VOCABS tn = tn.GRAPHEMES.length + 1 := rfl

/-- Witness for C10 at a concrete two-grapheme vocabulary. -/
theorem vocabs_eq_C10_witness : VOCABS tnDemo = 3 :=
  vocabs_eq_C10 tnDemo

end Speeches
